import Mathlib

/-!
Verification of the fcitx dbus marshalling core (`src/lib/fcitx-utils/dbus/message.h`).

The composite operators (`std::pair`, tuple, `DBusStruct`, `DictEntry`, `std::vector`),
`TupleMarshaller`, `Variant`, `VariantHelper` and the log formatting are embedded from the
header source.  The primitive stream operators, `operator bool`, `end()` and
`operator>>(Variant &)` are implemented in `message.cpp`, which is not part of the sources;
those are modelled from the spec (sections 4.1 and 6): a `Message` is an ordered list of
typed wire values with a sticky validity flag and a read cursor.
-/

namespace Fcitx

/-- Container kinds, embedding the `Container::Type` enum (`Type` is a Lean keyword, so
the enum itself is named `ContainerType`). -/
inductive ContainerType where
  | Array
  | DictEntry
  | Struct
  | Variant
deriving DecidableEq

/-- One typed wire value of a message stream.  The constructors are named by their
wire-signature codes from the spec table in section 6.  A `double` is carried as its
64-bit pattern (`Nat`); the codec never computes with it, only stores and returns it. -/
inductive WireValue where
  | y (v : Nat)
  | b (v : Bool)
  | n (v : Int)
  | q (v : Nat)
  | i (v : Int)
  | u (v : Nat)
  | x (v : Int)
  | t (v : Nat)
  | d (v : Nat)
  | s (v : String)
  | o (v : String)
  | g (v : String)
  | h (v : Nat)
  | containerOpen (ct : ContainerType) (content : String)
  | containerClose
deriving DecidableEq

/-- Modelled from the spec: `Message` is an ordered, append-only (write) or
cursor-advancing (read) stream of typed wire values with a sticky validity flag
(`operator bool`); the underlying stream lives in `message.cpp` which is not in src. -/
structure Message where
  valid : Bool := true
  written : List WireValue := []
  readPos : Nat := 0
deriving DecidableEq

/-- The next wire value under the read cursor. -/
def Message.next (m : Message) : Option WireValue :=
  m.written.get? m.readPos

/-- Advance the read cursor by one wire value. -/
def Message.advance (m : Message) : Message :=
  { m with readPos := m.readPos + 1 }

/-- Enter the sticky `Invalid` state. -/
def Message.invalidate (m : Message) : Message :=
  { m with valid := false }

/-- Modelled from the spec: a write-mode operator appends one wire value, and is a
no-op when the message is `Invalid`. -/
def Message.app (m : Message) (w : WireValue) : Message :=
  if m.valid then { m with written := m.written ++ [w] } else m

/-- Modelled from the spec: `Message::end()` — whether the cursor reached the close of
the innermost open container or the overall end (`end` is a Lean keyword). -/
def Message.atEnd (m : Message) : Bool :=
  match m.next with
  | some .containerClose => true
  | none => true
  | _ => false

/-- Canonical wire signatures of the primitive kinds (spec section 6; the signature
traits live in `message_details.h`, not in src). -/
def sigY : String := "y"

def sigB : String := "b"

def sigN : String := "n"

def sigQ : String := "q"

def sigI : String := "i"

def sigU : String := "u"

def sigX : String := "x"

def sigT : String := "t"

def sigD : String := "d"

def sigS : String := "s"

def sigO : String := "o"

def sigG : String := "g"

def sigH : String := "h"

/-- Signature contributed by one wire value at the top level of a stream. -/
def itemSig : WireValue → String
  | .y _ => sigY
  | .b _ => sigB
  | .n _ => sigN
  | .q _ => sigQ
  | .i _ => sigI
  | .u _ => sigU
  | .x _ => sigX
  | .t _ => sigT
  | .d _ => sigD
  | .s _ => sigS
  | .o _ => sigO
  | .g _ => sigG
  | .h _ => sigH
  | .containerOpen .Array c => "a" ++ c
  | .containerOpen .Struct c => "(" ++ c ++ ")"
  | .containerOpen .DictEntry c => "\x7b" ++ c ++ "\x7d"
  | .containerOpen .Variant _ => "v"
  | .containerClose => ""

/-- Modelled from the spec: the signature string of a stream — top-level values
contribute their signature, the bodies of containers are skipped (the open marker
already carries the content signature).  `d` counts the container nesting depth. -/
def sigScan : List WireValue → Nat → String
  | [], _ => ""
  | w :: rest, 0 =>
    match w with
    | .containerOpen ct c => itemSig (.containerOpen ct c) ++ sigScan rest 1
    | .containerClose => sigScan rest 0
    | pw => itemSig pw ++ sigScan rest 0
  | w :: rest, d + 1 =>
    match w with
    | .containerOpen _ _ => sigScan rest (d + 2)
    | .containerClose => sigScan rest d
    | _ => sigScan rest (d + 1)

/-- Modelled from the spec: `Message::signature()` — signature of the message contents. -/
def Message.signatureStr (m : Message) : String :=
  sigScan m.written 0

/-- Modelled from the spec: `Message &operator<<(uint8_t)`. -/
def writeY (m : Message) (v : Nat) : Message := m.app (.y v)

/-- Modelled from the spec: `Message &operator<<(bool)`. -/
def writeB (m : Message) (v : Bool) : Message := m.app (.b v)

/-- Modelled from the spec: `Message &operator<<(int16_t)`. -/
def writeN (m : Message) (v : Int) : Message := m.app (.n v)

/-- Modelled from the spec: `Message &operator<<(uint16_t)`. -/
def writeQ (m : Message) (v : Nat) : Message := m.app (.q v)

/-- Modelled from the spec: `Message &operator<<(int32_t)`. -/
def writeI (m : Message) (v : Int) : Message := m.app (.i v)

/-- Modelled from the spec: `Message &operator<<(uint32_t)`. -/
def writeU (m : Message) (v : Nat) : Message := m.app (.u v)

/-- Modelled from the spec: `Message &operator<<(int64_t)`. -/
def writeX (m : Message) (v : Int) : Message := m.app (.x v)

/-- Modelled from the spec: `Message &operator<<(uint64_t)`. -/
def writeT (m : Message) (v : Nat) : Message := m.app (.t v)

/-- Modelled from the spec: `Message &operator<<(double)` (bit pattern). -/
def writeD (m : Message) (v : Nat) : Message := m.app (.d v)

/-- Modelled from the spec: `Message &operator<<(const std::string &)`. -/
def writeS (m : Message) (v : String) : Message := m.app (.s v)

/-- Modelled from the spec: `Message &operator<<(const ObjectPath &)`. -/
def writeO (m : Message) (v : String) : Message := m.app (.o v)

/-- Modelled from the spec: `Message &operator<<(const Signature &)`. -/
def writeG (m : Message) (v : String) : Message := m.app (.g v)

/-- Modelled from the spec: `Message &operator<<(const UnixFD &)`. -/
def writeH (m : Message) (v : Nat) : Message := m.app (.h v)

/-- Modelled from the spec: `Message &operator<<(const Container &)` — append an
open marker carrying the kind and content signature. -/
def writeContainer (m : Message) (c : ContainerType) (content : String) : Message :=
  m.app (.containerOpen c content)

/-- Modelled from the spec: `Message &operator<<(const ContainerEnd &)`. -/
def writeContainerEnd (m : Message) : Message :=
  m.app .containerClose

/-- Modelled from the spec: `Message &operator>>(uint8_t &)` — no-op when `Invalid`,
consume the next wire value if its type code matches, otherwise become `Invalid`
leaving the target untouched. -/
def readY (m : Message) (tgt : Nat) : Message × Nat :=
  if m.valid then
    match m.next with
    | some (.y v) => (m.advance, v)
    | _ => (m.invalidate, tgt)
  else (m, tgt)

/-- Modelled from the spec: `Message &operator>>(bool &)`. -/
def readB (m : Message) (tgt : Bool) : Message × Bool :=
  if m.valid then
    match m.next with
    | some (.b v) => (m.advance, v)
    | _ => (m.invalidate, tgt)
  else (m, tgt)

/-- Modelled from the spec: `Message &operator>>(int16_t &)`. -/
def readN (m : Message) (tgt : Int) : Message × Int :=
  if m.valid then
    match m.next with
    | some (.n v) => (m.advance, v)
    | _ => (m.invalidate, tgt)
  else (m, tgt)

/-- Modelled from the spec: `Message &operator>>(uint16_t &)`. -/
def readQ (m : Message) (tgt : Nat) : Message × Nat :=
  if m.valid then
    match m.next with
    | some (.q v) => (m.advance, v)
    | _ => (m.invalidate, tgt)
  else (m, tgt)

/-- Modelled from the spec: `Message &operator>>(int32_t &)`. -/
def readI (m : Message) (tgt : Int) : Message × Int :=
  if m.valid then
    match m.next with
    | some (.i v) => (m.advance, v)
    | _ => (m.invalidate, tgt)
  else (m, tgt)

/-- Modelled from the spec: `Message &operator>>(uint32_t &)`. -/
def readU (m : Message) (tgt : Nat) : Message × Nat :=
  if m.valid then
    match m.next with
    | some (.u v) => (m.advance, v)
    | _ => (m.invalidate, tgt)
  else (m, tgt)

/-- Modelled from the spec: `Message &operator>>(int64_t &)`. -/
def readX (m : Message) (tgt : Int) : Message × Int :=
  if m.valid then
    match m.next with
    | some (.x v) => (m.advance, v)
    | _ => (m.invalidate, tgt)
  else (m, tgt)

/-- Modelled from the spec: `Message &operator>>(uint64_t &)`. -/
def readT (m : Message) (tgt : Nat) : Message × Nat :=
  if m.valid then
    match m.next with
    | some (.t v) => (m.advance, v)
    | _ => (m.invalidate, tgt)
  else (m, tgt)

/-- Modelled from the spec: `Message &operator>>(double &)` (bit pattern). -/
def readD (m : Message) (tgt : Nat) : Message × Nat :=
  if m.valid then
    match m.next with
    | some (.d v) => (m.advance, v)
    | _ => (m.invalidate, tgt)
  else (m, tgt)

/-- Modelled from the spec: `Message &operator>>(std::string &)`. -/
def readS (m : Message) (tgt : String) : Message × String :=
  if m.valid then
    match m.next with
    | some (.s v) => (m.advance, v)
    | _ => (m.invalidate, tgt)
  else (m, tgt)

/-- Modelled from the spec: `Message &operator>>(ObjectPath &)`. -/
def readO (m : Message) (tgt : String) : Message × String :=
  if m.valid then
    match m.next with
    | some (.o v) => (m.advance, v)
    | _ => (m.invalidate, tgt)
  else (m, tgt)

/-- Modelled from the spec: `Message &operator>>(Signature &)`. -/
def readG (m : Message) (tgt : String) : Message × String :=
  if m.valid then
    match m.next with
    | some (.g v) => (m.advance, v)
    | _ => (m.invalidate, tgt)
  else (m, tgt)

/-- Modelled from the spec: `Message &operator>>(UnixFD &)`. -/
def readH (m : Message) (tgt : Nat) : Message × Nat :=
  if m.valid then
    match m.next with
    | some (.h v) => (m.advance, v)
    | _ => (m.invalidate, tgt)
  else (m, tgt)

/-- Modelled from the spec: `Message &operator>>(const Container &)` — consume and
validate an open marker of the expected kind and content signature. -/
def readContainer (m : Message) (c : ContainerType) (content : String) : Message :=
  if m.valid then
    match m.next with
    | some (.containerOpen ct cs) =>
      if ct = c ∧ cs = content then m.advance else m.invalidate
    | _ => m.invalidate
  else m

/-- Modelled from the spec: `Message &operator>>(const ContainerEnd &)` — consume the
matching close marker. -/
def readContainerEnd (m : Message) : Message :=
  if m.valid then
    match m.next with
    | some .containerClose => m.advance
    | _ => m.invalidate
  else m

/-- Embedding of `Message::operator<<(const std::pair<K, V> &)` (message.h:363-374):
return unchanged when invalid, write the first element, bail out on failure, write
the second.  Parameterised by the element write operators, as the template is by
the element types. -/
def writePair (w1 : Message → α → Message) (w2 : Message → β → Message)
    (m : Message) (p : α × β) : Message :=
  if m.valid then
    let m1 := w1 m p.1
    if m1.valid then w2 m1 p.2 else m1
  else m

/-- Embedding of `Message::operator>>(std::pair<K, V> &)` (message.h:454-465). -/
def readPair (r1 : Message → α → Message × α) (r2 : Message → β → Message × β)
    (m : Message) (p : α × β) : Message × (α × β) :=
  if m.valid then
    let q1 := r1 m p.1
    if q1.1.valid then
      let q2 := r2 q1.1 p.2
      (q2.1, (q1.2, q2.2))
    else (q1.1, (q1.2, p.2))
  else (m, p)

/-- Embedding of `TupleMarshaller<Tuple, 1>::marshall` (message.h:291-297). -/
def tupleMarshall1 (w1 : Message → α → Message) (m : Message) (t : α) : Message :=
  w1 m t

/-- Embedding of `TupleMarshaller<Tuple, 2>::marshall` (message.h:279-289): marshal
the first field through the arity-1 instance, then write the second field. -/
def tupleMarshall2 (w1 : Message → α → Message) (w2 : Message → β → Message)
    (m : Message) (t : α × β) : Message :=
  w2 (tupleMarshall1 w1 m t.1) t.2

/-- Embedding of `TupleMarshaller<Tuple, 1>::unmarshall`. -/
def tupleUnmarshall1 (r1 : Message → α → Message × α) (m : Message) (t : α) :
    Message × α :=
  r1 m t

/-- Embedding of `TupleMarshaller<Tuple, 2>::unmarshall`: read field 0, then field 1,
with no validity check of its own (each field operator is a no-op when invalid). -/
def tupleUnmarshall2 (r1 : Message → α → Message × α) (r2 : Message → β → Message × β)
    (m : Message) (t : α × β) : Message × (α × β) :=
  let q1 := tupleUnmarshall1 r1 m t.1
  let q2 := r2 q1.1 t.2
  (q2.1, (q1.2, q2.2))

/-- Content signature of a two-field struct: the concatenation of the field
signatures (spec: "open Struct container with the concatenated element signature";
`DBusContainerSignatureTraits` lives in `message_details.h`, not in src).
Instantiated at fields (bool, double). -/
def structBDContent : String := sigB ++ sigD

/-- Embedding of `Message::operator<<(const DBusStruct<Args...> &)` (message.h:382-397)
instantiated at `DBusStruct<bool, double>`: open a Struct container with the
concatenated field signature, marshal the fields in declared order, close if still
valid. -/
def writeStructBD (m : Message) (t : Bool × Nat) : Message :=
  let m1 := writeContainer m .Struct structBDContent
  if m1.valid then
    let m2 := tupleMarshall2 writeB writeD m1 t
    if m2.valid then writeContainerEnd m2 else m2
  else m1

/-- Embedding of `Message::operator>>(DBusStruct<Args...> &)` (message.h:473-488)
instantiated at `DBusStruct<bool, double>`. -/
def readStructBD (m : Message) (t : Bool × Nat) : Message × (Bool × Nat) :=
  let m1 := readContainer m .Struct structBDContent
  if m1.valid then
    let q := tupleUnmarshall2 readB readD m1 t
    if q.1.valid then (readContainerEnd q.1, q.2) else q
  else (m1, t)

/-- Embedding of the `DictEntry<Key, Value>` holder (message.h:207-226). -/
structure DictEntry (α β : Type) where
  key : α
  value : β
deriving DecidableEq

/-- Content signature of a dict entry with string key and int32 value: key
signature followed by value signature (derived, like `structBDContent`, from the
element signatures). -/
def dictSIContent : String := sigS ++ sigI

/-- Embedding of `Message::operator<<(const DictEntry<Key, Value> &)`
(message.h:399-419) instantiated at key `std::string`, value `int32_t`: open a
DictEntry container, write the key, bail out on failure, write the value, bail out
on failure, close. -/
def writeDictSI (m : Message) (e : DictEntry String Int) : Message :=
  let m1 := writeContainer m .DictEntry dictSIContent
  if m1.valid then
    let m2 := writeS m1 e.key
    if !m2.valid then m2
    else
      let m3 := writeI m2 e.value
      if !m3.valid then m3
      else if m3.valid then writeContainerEnd m3 else m3
  else m1

/-- Embedding of `Message::operator>>(DictEntry<Key, Value> &)` (message.h:490-510)
instantiated at key `std::string`, value `int32_t`. -/
def readDictSI (m : Message) (e : DictEntry String Int) :
    Message × DictEntry String Int :=
  let m1 := readContainer m .DictEntry dictSIContent
  if m1.valid then
    let qk := readS m1 e.key
    if !qk.1.valid then (qk.1, { key := qk.2, value := e.value })
    else
      let qv := readI qk.1 e.value
      if !qv.1.valid then (qv.1, { key := qk.2, value := qv.2 })
      else if qv.1.valid then (readContainerEnd qv.1, { key := qk.2, value := qv.2 })
      else (qv.1, { key := qk.2, value := qv.2 })
  else (m1, e)

/-- Embedding of the element loop of `Message::operator>>(std::vector<T> &)`
(message.h:520-523): `while (!end() && *this >> temp) t.push_back(temp);`.
`fuel` bounds the iteration count (each successful read consumes at least one wire
value, so the remaining stream length suffices). -/
def readVecLoop (rd : Message → α → Message × α) :
    Nat → Message → α → List α → Message × List α
  | 0, m, _, acc => (m, acc)
  | fuel + 1, m, temp, acc =>
    if m.atEnd then (m, acc)
    else
      let q := rd m temp
      if q.1.valid then readVecLoop rd fuel q.1 q.2 (acc ++ [q.2])
      else (q.1, acc)

/-- Embedding of `Message::operator<<(const std::vector<T> &)` (message.h:421-435):
open an Array container with the element signature, write each element in sequence
order, close. -/
def writeVec (w : Message → α → Message) (content : String)
    (m : Message) (xs : List α) : Message :=
  let m1 := writeContainer m .Array content
  if m1.valid then writeContainerEnd (xs.foldl w m1)
  else m1

/-- Embedding of `Message::operator>>(std::vector<T> &)` (message.h:512-527): open
the Array container, loop a default-constructed temporary while the end-of-container
sentinel is false appending each element in encounter order, then consume the close
marker. -/
def readVec (rd : Message → α → Message × α) (dflt : α) (content : String)
    (m : Message) (t : List α) : Message × List α :=
  let m1 := readContainer m .Array content
  if m1.valid then
    let q := readVecLoop rd (m1.written.length - m1.readPos) m1 dflt t
    (readContainerEnd q.1, q.2)
  else (m1, t)

/-- Write of a `std::vector<std::string>`, the instantiation used by the theorems. -/
def writeVecS (m : Message) (xs : List String) : Message :=
  writeVec writeS sigS m xs

/-- Read of a `std::vector<std::string>`. -/
def readVecS (m : Message) (t : List String) : Message × List String :=
  readVec readS "" sigS m t

/-- The payload universe held by `Variant` in this development: the concrete
instantiations exercised by the spec scenarios (uint32, int32, string, bool). -/
inductive VPayload where
  | pU32 (v : Nat)
  | pI32 (v : Int)
  | pStr (v : String)
  | pBool (v : Bool)
deriving DecidableEq

/-- Signature of a payload's concrete type, per `DBusSignatureTraits`. -/
def VPayload.sig : VPayload → String
  | .pU32 _ => sigU
  | .pI32 _ => sigI
  | .pStr _ => sigS
  | .pBool _ => sigB

/-- Identity of a `VariantHelper<Value>` operations table: one shared instance per
concrete payload type (spec 3: the table is immutable and shared by reference). -/
inductive HelperTag where
  | hU32
  | hI32
  | hStr
  | hBool
deriving DecidableEq

/-- Embedding of `VariantHelper<Value>::signature()` (message.h:105-107). -/
def HelperTag.sig : HelperTag → String
  | .hU32 => sigU
  | .hI32 => sigI
  | .hStr => sigS
  | .hBool => sigB

/-- The value produced by `std::make_shared<Value>()`: a value-initialized `Value`. -/
def HelperTag.defaultPayload : HelperTag → VPayload
  | .hU32 => .pU32 0
  | .hI32 => .pI32 0
  | .hStr => .pStr ""
  | .hBool => .pBool false

/-- The operations table a payload's concrete type binds (`VariantHelper<value_type>`). -/
def VPayload.tag : VPayload → HelperTag
  | .pU32 _ => .hU32
  | .pI32 _ => .hI32
  | .pStr _ => .hStr
  | .pBool _ => .hBool

/-- A heap allocation holding a payload: an allocation identity (`shared_ptr`
address) paired with the stored value.  Distinct identities model non-aliasing. -/
abbrev Alloc := Nat × VPayload

/-- Embedding of `VariantHelper<Value>::copy` (message.h:86-92): with a non-null
source, copy-construct a fresh `Value` from it; with a null source, return a fresh
default-constructed `Value`.  `fresh` is the allocation identity `make_shared`
hands out. -/
def HelperTag.copy (h : HelperTag) (src : Option Alloc) (fresh : Nat) : Alloc :=
  match src with
  | some a => (fresh, a.2)
  | none => (fresh, h.defaultPayload)

/-- Embedding of `VariantHelper<Value>::serialize` (message.h:93-96): cast the
payload and stream it.  The catch-all covers a type-confused cast, which is outside
the modelled contract (the C++ there is undefined). -/
def HelperTag.serializePayload : HelperTag → Message → VPayload → Message
  | .hU32, m, .pU32 v => writeU m v
  | .hI32, m, .pI32 v => writeI m v
  | .hStr, m, .pStr v => writeS m v
  | .hBool, m, .pBool v => writeB m v
  | _, m, _ => m

/-- Embedding of `VariantHelper<Value>::deserialize` (message.h:97-100): read one
value of the concrete type into a default-constructed target. -/
def HelperTag.deserialize : HelperTag → Message → Message × VPayload
  | .hU32, m => ((readU m 0).1, .pU32 (readU m 0).2)
  | .hI32, m => ((readI m 0).1, .pI32 (readI m 0).2)
  | .hStr, m => ((readS m "").1, .pStr (readS m "").2)
  | .hBool, m => ((readB m false).1, .pBool (readB m false).2)

/-- Display text `LogMessageBuilder` produces for a payload value (`log.h` is not in
src; numbers print in decimal per spec scenario 4). -/
def VPayload.display : VPayload → String
  | .pU32 v => toString v
  | .pI32 v => toString v
  | .pStr v => v
  | .pBool v => if v then "true" else "false"

/-- Embedding of the `Variant` state (message.h:201-204): signature string, payload
allocation, bound operations table; all empty/null when default-constructed. -/
structure Variant where
  signature_ : String := ""
  data_ : Option Alloc := none
  helper_ : Option HelperTag := none
deriving DecidableEq

/-- Embedding of `Variant::setData(Value &&)` (message.h:534-540): signature from the
type's traits, payload freshly allocated, helper bound — all three together. -/
def Variant.setData (_v : Variant) (fresh : Nat) (p : VPayload) : Variant :=
  { signature_ := p.sig, data_ := some (fresh, p), helper_ := some p.tag }

/-- Embedding of `Variant::Variant(const Variant &)` (message.h:147-151): copy the
signature and the helper reference; if a helper is bound, allocate the payload anew
through its copy capability (otherwise the new payload stays null). -/
def Variant.copyCtor (fresh : Nat) (v : Variant) : Variant :=
  { signature_ := v.signature_, helper_ := v.helper_,
    data_ :=
      match v.helper_ with
      | some h => some (h.copy v.data_ fresh)
      | none => none }

/-- Embedding of `Variant::operator=(const Variant &)` (message.h:154-161): copy the
signature and helper; the payload is re-allocated through the helper only when the
source has one bound — otherwise `data_` keeps the target's previous allocation. -/
def Variant.assign (fresh : Nat) (tgt v : Variant) : Variant :=
  { signature_ := v.signature_, helper_ := v.helper_,
    data_ :=
      match v.helper_ with
      | some h => some (h.copy v.data_ fresh)
      | none => tgt.data_ }

/-- Embedding of `Variant::operator=(Variant &&)` (defaulted, message.h:162): the
target takes over the source's fields without copying the payload. -/
def Variant.moveAssign (_tgt v : Variant) : Variant :=
  v

/-- Embedding of `Variant::setRawData` (message.h:176-183): store the given payload
and helper; refresh the signature from the helper only when one is supplied. -/
def Variant.setRawData (v : Variant) (data : Option Alloc) (helper : Option HelperTag) :
    Variant :=
  { data_ := data, helper_ := helper,
    signature_ :=
      match helper with
      | some h => h.sig
      | none => v.signature_ }

/-- Embedding of `Variant::printData` (message.h:195-199): delegate to the helper's
print capability when one is bound, otherwise produce nothing. -/
def Variant.printData (v : Variant) : String :=
  match v.helper_ with
  | some _ =>
    match v.data_ with
    | some a => a.2.display
    | none => ""
  | none => ""

/-- Embedding of `operator<<(LogMessageBuilder &, const Variant &)` (message.h:568-574). -/
def Variant.displayString (v : Variant) : String :=
  "Variant(sig=" ++ v.signature_ ++ ", content=" ++ v.printData ++ ")"

/-- The C7 invariant: the stored payload's dynamic type matches the stored signature. -/
def Variant.wf (v : Variant) : Bool :=
  match v.data_ with
  | some a => a.2.sig == v.signature_
  | none => true

/-- The bound operations table (when any) is the one for the stored signature. -/
def Variant.helperOk (v : Variant) : Bool :=
  match v.helper_ with
  | some h => h.sig == v.signature_
  | none => true

/-- Modelled from the spec: the process-wide type registry, a mapping from signature
string to operations table (`registerTypeImpl`/`lookupType` live in `message.cpp`). -/
abbrev Registry := List (String × HelperTag)

/-- Modelled from the spec: `VariantTypeRegistry::lookupType` (message.h:128-129) —
the table registered for a signature, or an empty result. -/
def lookupType : Registry → String → Option HelperTag
  | [], _ => none
  | e :: rest, sg => if e.1 = sg then some e.2 else lookupType rest sg

/-- Modelled from the spec: `Message::operator>>(Variant &)` (declared message.h:452,
implemented in `message.cpp`) — read a signature value, look its operations table up
in the registry; if absent, fail (`Invalid`) storing nothing into the target;
otherwise delegate to the table's decode capability and store the produced payload
together with the read signature into the target. -/
def readVariant (reg : Registry) (fresh : Nat) (m : Message) (tgt : Variant) :
    Message × Variant :=
  if m.valid then
    let q := readG m ""
    if q.1.valid then
      match lookupType reg q.2 with
      | none => (q.1.invalidate, tgt)
      | some h =>
        let r := h.deserialize q.1
        (r.1, { signature_ := q.2, data_ := some (fresh, r.2), helper_ := some h })
    else (q.1, tgt)
  else (m, tgt)

/-- Modelled from the spec: `Message::operator<<(const Variant &)` /
`Variant::writeToMessage` (implemented in `message.cpp`) — no-op when invalid,
otherwise write the payload's signature as a signature value and delegate to the
bound table's encode capability. -/
def writeVariant (m : Message) (v : Variant) : Message :=
  if m.valid then
    let m1 := writeG m v.signature_
    match v.helper_, v.data_ with
    | some h, some a => h.serializePayload m1 a.2
    | _, _ => m1
  else m

theorem get?_append_len (pre suf : List WireValue) :
    (pre ++ suf).get? pre.length = suf.get? 0 := by
  induction pre with
  | nil => rfl
  | cons a l ih => simpa using ih

theorem app_invalid (m : Message) (hm : m.valid = false) (w : WireValue) :
    m.app w = m := by
  simp [Message.app, hm]

/-- C2: for every supported primitive kind (8/16/32/64-bit signed and unsigned
integers, boolean, double, string, object path, signature value, file descriptor)
and every value, writing the value into a fresh valid `Message` and reading it back
yields the value again with the message still valid, and the signature the write
records is the kind's canonical wire signature. -/
theorem primitive_roundtrip :
    (∀ v, readY (writeY {} v) 0 = (⟨true, [.y v], 1⟩, v) ∧ (writeY {} v).signatureStr = sigY)
  ∧ (∀ v, readB (writeB {} v) false = (⟨true, [.b v], 1⟩, v) ∧ (writeB {} v).signatureStr = sigB)
  ∧ (∀ v, readN (writeN {} v) 0 = (⟨true, [.n v], 1⟩, v) ∧ (writeN {} v).signatureStr = sigN)
  ∧ (∀ v, readQ (writeQ {} v) 0 = (⟨true, [.q v], 1⟩, v) ∧ (writeQ {} v).signatureStr = sigQ)
  ∧ (∀ v, readI (writeI {} v) 0 = (⟨true, [.i v], 1⟩, v) ∧ (writeI {} v).signatureStr = sigI)
  ∧ (∀ v, readU (writeU {} v) 0 = (⟨true, [.u v], 1⟩, v) ∧ (writeU {} v).signatureStr = sigU)
  ∧ (∀ v, readX (writeX {} v) 0 = (⟨true, [.x v], 1⟩, v) ∧ (writeX {} v).signatureStr = sigX)
  ∧ (∀ v, readT (writeT {} v) 0 = (⟨true, [.t v], 1⟩, v) ∧ (writeT {} v).signatureStr = sigT)
  ∧ (∀ v, readD (writeD {} v) 0 = (⟨true, [.d v], 1⟩, v) ∧ (writeD {} v).signatureStr = sigD)
  ∧ (∀ v, readS (writeS {} v) "" = (⟨true, [.s v], 1⟩, v) ∧ (writeS {} v).signatureStr = sigS)
  ∧ (∀ v, readO (writeO {} v) "" = (⟨true, [.o v], 1⟩, v) ∧ (writeO {} v).signatureStr = sigO)
  ∧ (∀ v, readG (writeG {} v) "" = (⟨true, [.g v], 1⟩, v) ∧ (writeG {} v).signatureStr = sigG)
  ∧ (∀ v, readH (writeH {} v) 0 = (⟨true, [.h v], 1⟩, v) ∧ (writeH {} v).signatureStr = sigH) :=
  ⟨fun _ => ⟨rfl, rfl⟩, fun _ => ⟨rfl, rfl⟩, fun _ => ⟨rfl, rfl⟩, fun _ => ⟨rfl, rfl⟩,
   fun _ => ⟨rfl, rfl⟩, fun _ => ⟨rfl, rfl⟩, fun _ => ⟨rfl, rfl⟩, fun _ => ⟨rfl, rfl⟩,
   fun _ => ⟨rfl, rfl⟩, fun _ => ⟨rfl, rfl⟩, fun _ => ⟨rfl, rfl⟩, fun _ => ⟨rfl, rfl⟩,
   fun _ => ⟨rfl, rfl⟩⟩

/-- C9: a default-constructed `Variant` has an empty signature and a null payload,
formatting it produces only the fixed frame with empty content, and formatting a
`Variant` holding registered uint32 `7` produces `Variant(sig=u, content=7)`. -/
theorem variant_default_and_format :
    ({} : Variant).signature_ = "" ∧ ({} : Variant).data_ = none
  ∧ ({} : Variant).helper_ = none
  ∧ Variant.displayString {} = "Variant(sig=, content=)"
  ∧ Variant.displayString (Variant.setData {} 0 (.pU32 7)) = "Variant(sig=u, content=7)" := by
  refine ⟨rfl, rfl, rfl, ?_, ?_⟩ <;> decide

theorem VPayload.tag_sig (p : VPayload) : p.tag.sig = p.sig := by
  cases p <;> rfl

theorem HelperTag.defaultPayload_sig (h : HelperTag) : h.defaultPayload.sig = h.sig := by
  cases h <;> rfl

theorem wf_setData (v : Variant) (fresh : Nat) (p : VPayload) :
    (v.setData fresh p).wf = true ∧ (v.setData fresh p).helperOk = true := by
  constructor
  · simp [Variant.setData, Variant.wf]
  · simp [Variant.setData, Variant.helperOk, VPayload.tag_sig]

theorem wf_copyCtor (fresh : Nat) (v : Variant) (hwf : v.wf = true)
    (hok : v.helperOk = true) : (Variant.copyCtor fresh v).wf = true := by
  unfold Variant.wf Variant.copyCtor HelperTag.copy
  unfold Variant.wf at hwf
  unfold Variant.helperOk at hok
  cases hh : v.helper_ with
  | none => simp
  | some h =>
    rw [hh] at hok
    cases hd : v.data_ with
    | none => simpa [HelperTag.defaultPayload_sig] using hok
    | some a =>
      rw [hd] at hwf
      simpa using hwf

theorem wf_assign_some (fresh : Nat) (tgt v : Variant) (h : HelperTag)
    (hh : v.helper_ = some h) (hwf : v.wf = true) (hok : v.helperOk = true) :
    (Variant.assign fresh tgt v).wf = true := by
  unfold Variant.wf Variant.assign HelperTag.copy
  unfold Variant.wf at hwf
  unfold Variant.helperOk at hok
  rw [hh] at hok ⊢
  cases hd : v.data_ with
  | none => simpa [HelperTag.defaultPayload_sig] using hok
  | some a =>
    rw [hd] at hwf
    simpa using hwf

theorem wf_assign_none (fresh : Nat) (tgt v : Variant) (hh : v.helper_ = none)
    (ht : tgt.data_ = none) : (Variant.assign fresh tgt v).wf = true := by
  unfold Variant.wf Variant.assign
  rw [hh, ht]

theorem wf_setRawData_some (v : Variant) (data : Option Alloc) (h : HelperTag)
    (hd : ∀ a, data = some a → VPayload.sig a.2 = h.sig) :
    (v.setRawData data (some h)).wf = true := by
  unfold Variant.wf Variant.setRawData
  cases data with
  | none => rfl
  | some a => simpa using hd a rfl

/-- C7 counterexample: two mutations from message.h break the payload/signature
invariant on well-formed inputs.  Copy-assigning a default-constructed `Variant`
onto one holding a uint32 leaves the old payload in place under an empty signature
(`operator=` only re-allocates `data_` when the source has a helper), and
`setRawData` with a null helper installs a string payload while keeping the stale
`"u"` signature. -/
theorem variant_invariant_counterexample :
    (Variant.assign 1 (Variant.setData {} 0 (.pU32 5)) {}).wf = false
  ∧ ((Variant.setData {} 0 (.pU32 5)).setRawData (some (2, .pStr "x")) none).wf = false := by
  decide

/-- C7 (amended): the payload/signature invariant is preserved by construction from
a value and `setData`; by copy construction and move assignment from a source whose
own payload and helper agree with its signature; by copy assignment when the source
has a bound helper consistent with its signature, or else when the target's payload
is null; and by `setRawData` when a helper is supplied and the payload (if any)
matches the helper's signature, or when the payload is null. -/
theorem variant_invariant_amended :
    (∀ (v : Variant) (fresh : Nat) (p : VPayload),
        (v.setData fresh p).wf = true ∧ (v.setData fresh p).helperOk = true)
  ∧ (∀ (fresh : Nat) (v : Variant), v.wf = true → v.helperOk = true →
        (Variant.copyCtor fresh v).wf = true)
  ∧ (∀ (fresh : Nat) (tgt v : Variant) (h : HelperTag), v.helper_ = some h →
        v.wf = true → v.helperOk = true → (Variant.assign fresh tgt v).wf = true)
  ∧ (∀ (fresh : Nat) (tgt v : Variant), v.helper_ = none → tgt.data_ = none →
        (Variant.assign fresh tgt v).wf = true)
  ∧ (∀ (tgt v : Variant), v.wf = true → (Variant.moveAssign tgt v).wf = true)
  ∧ (∀ (v : Variant) (data : Option Alloc) (h : HelperTag),
        (∀ a, data = some a → VPayload.sig a.2 = h.sig) →
        (v.setRawData data (some h)).wf = true)
  ∧ (∀ (v : Variant) (helper : Option HelperTag) (h : HelperTag), helper = some h →
        (v.setRawData none helper).wf = true) :=
  ⟨wf_setData, wf_copyCtor,
   fun fresh tgt v h hh hwf hok => wf_assign_some fresh tgt v h hh hwf hok,
   wf_assign_none,
   fun _tgt v hwf => hwf,
   wf_setRawData_some,
   fun v helper h hh => by
     subst hh
     exact wf_setRawData_some v none h (fun a ha => by cases ha)⟩

theorem variant_invariant_amended_w :
    (Variant.copyCtor 3 ⟨"u", some (0, .pU32 9), some .hU32⟩).wf = true :=
  variant_invariant_amended.2.1 3 ⟨"u", some (0, .pU32 9), some .hU32⟩ (by decide) (by decide)

/-- C8: copy construction and copy assignment from a `Variant` with a bound
operations table produce the payload through that table's copy capability: the new
payload is value-equal to the source's but lives in a fresh allocation distinct from
the source's, so each instance owns its payload exclusively. -/
theorem variant_copy_deep (v : Variant) (h : HelperTag) (a : Alloc) (fresh : Nat)
    (hh : v.helper_ = some h) (hd : v.data_ = some a) (hf : fresh ≠ a.1) :
    (Variant.copyCtor fresh v).data_ = some (fresh, a.2)
  ∧ (∀ a2 : Alloc, (Variant.copyCtor fresh v).data_ = some a2 → a2.1 ≠ a.1 ∧ a2.2 = a.2)
  ∧ ∀ tgt : Variant, (Variant.assign fresh tgt v).data_ = some (fresh, a.2) := by
  unfold Variant.copyCtor Variant.assign HelperTag.copy
  rw [hh, hd]
  refine ⟨rfl, ?_, fun tgt => rfl⟩
  intro a2 ha2
  have : a2 = (fresh, a.2) := by simpa using ha2.symm
  subst this
  exact ⟨hf, rfl⟩

theorem variant_copy_deep_w :
    (Variant.copyCtor 3 ⟨"u", some (0, .pU32 9), some .hU32⟩).data_ = some (3, .pU32 9) :=
  (variant_copy_deep ⟨"u", some (0, .pU32 9), some .hU32⟩ .hU32 (0, .pU32 9) 3
    rfl rfl (by decide)).1

/-- C10: `VariantHelper<T>::copy` on a null source pointer returns a freshly
default-constructed value, so copy-constructing a `Variant` with a bound operations
table but a null payload yields a default-constructed payload, never null. -/
theorem variant_copy_null_default (v : Variant) (h : HelperTag) (fresh : Nat)
    (hh : v.helper_ = some h) (hd : v.data_ = none) :
    HelperTag.copy h none fresh = (fresh, h.defaultPayload)
  ∧ (Variant.copyCtor fresh v).data_ = some (fresh, h.defaultPayload)
  ∧ (Variant.copyCtor fresh v).data_ ≠ none := by
  unfold Variant.copyCtor HelperTag.copy
  rw [hh, hd]
  exact ⟨rfl, rfl, by simp⟩

theorem variant_copy_null_default_w :
    (Variant.copyCtor 5 ⟨"u", none, some .hU32⟩).data_ = some (5, .pU32 0) :=
  (variant_copy_null_default ⟨"u", none, some .hU32⟩ .hU32 5 rfl rfl).2.1

/-- C1: once a `Message` is in the `Invalid` state, every read/write operator —
primitive, container marker, pair, tuple, struct, dict-entry, array, variant —
is a no-op returning the very same message state, so the already-written and
already-consumed stream content does not change afterward. -/
theorem sticky_invalid_noop (m : Message) (hm : m.valid = false) :
    (∀ v, writeY m v = m) ∧ (∀ v, writeB m v = m) ∧ (∀ v, writeN m v = m)
  ∧ (∀ v, writeQ m v = m) ∧ (∀ v, writeI m v = m) ∧ (∀ v, writeU m v = m)
  ∧ (∀ v, writeX m v = m) ∧ (∀ v, writeT m v = m) ∧ (∀ v, writeD m v = m)
  ∧ (∀ v, writeS m v = m) ∧ (∀ v, writeO m v = m) ∧ (∀ v, writeG m v = m)
  ∧ (∀ v, writeH m v = m)
  ∧ (∀ c content, writeContainer m c content = m) ∧ writeContainerEnd m = m
  ∧ (∀ t, readY m t = (m, t)) ∧ (∀ t, readB m t = (m, t)) ∧ (∀ t, readN m t = (m, t))
  ∧ (∀ t, readQ m t = (m, t)) ∧ (∀ t, readI m t = (m, t)) ∧ (∀ t, readU m t = (m, t))
  ∧ (∀ t, readX m t = (m, t)) ∧ (∀ t, readT m t = (m, t)) ∧ (∀ t, readD m t = (m, t))
  ∧ (∀ t, readS m t = (m, t)) ∧ (∀ t, readO m t = (m, t)) ∧ (∀ t, readG m t = (m, t))
  ∧ (∀ t, readH m t = (m, t))
  ∧ (∀ c content, readContainer m c content = m) ∧ readContainerEnd m = m
  ∧ (∀ (w1 : Message → Nat → Message) (w2 : Message → String → Message) p,
        writePair w1 w2 m p = m)
  ∧ (∀ (r1 : Message → Nat → Message × Nat) (r2 : Message → String → Message × String) p,
        readPair r1 r2 m p = (m, p))
  ∧ (∀ t, tupleMarshall2 writeB writeD m t = m)
  ∧ (∀ t, tupleUnmarshall2 readB readD m t = (m, t))
  ∧ (∀ t, writeStructBD m t = m) ∧ (∀ t, readStructBD m t = (m, t))
  ∧ (∀ e, writeDictSI m e = m) ∧ (∀ e, readDictSI m e = (m, e))
  ∧ (∀ xs, writeVecS m xs = m) ∧ (∀ t, readVecS m t = (m, t))
  ∧ (∀ v, writeVariant m v = m)
  ∧ (∀ reg fresh tgt, readVariant reg fresh m tgt = (m, tgt)) := by
  refine ⟨fun v => app_invalid m hm _, fun v => app_invalid m hm _,
    fun v => app_invalid m hm _, fun v => app_invalid m hm _,
    fun v => app_invalid m hm _, fun v => app_invalid m hm _,
    fun v => app_invalid m hm _, fun v => app_invalid m hm _,
    fun v => app_invalid m hm _, fun v => app_invalid m hm _,
    fun v => app_invalid m hm _, fun v => app_invalid m hm _,
    fun v => app_invalid m hm _,
    fun c content => app_invalid m hm _, app_invalid m hm _,
    fun t => by simp [readY, hm], fun t => by simp [readB, hm],
    fun t => by simp [readN, hm], fun t => by simp [readQ, hm],
    fun t => by simp [readI, hm], fun t => by simp [readU, hm],
    fun t => by simp [readX, hm], fun t => by simp [readT, hm],
    fun t => by simp [readD, hm], fun t => by simp [readS, hm],
    fun t => by simp [readO, hm], fun t => by simp [readG, hm],
    fun t => by simp [readH, hm],
    fun c content => by simp [readContainer, hm], by simp [readContainerEnd, hm],
    fun w1 w2 p => by simp [writePair, hm],
    fun r1 r2 p => by simp [readPair, hm],
    fun t => by simp [tupleMarshall2, tupleMarshall1, writeB, writeD,
      Message.app, hm],
    fun t => by simp [tupleUnmarshall2, tupleUnmarshall1, readB, readD, hm],
    fun t => by simp [writeStructBD, writeContainer, Message.app, hm],
    fun t => by simp [readStructBD, readContainer, hm],
    fun e => by simp [writeDictSI, writeContainer, Message.app, hm],
    fun e => by simp [readDictSI, readContainer, hm],
    fun xs => by simp [writeVecS, writeVec, writeContainer, Message.app, hm],
    fun t => by simp [readVecS, readVec, readContainer, hm],
    fun v => by simp [writeVariant, hm],
    fun reg fresh tgt => by simp [readVariant, hm]⟩

theorem sticky_invalid_noop_w :
    writeY ⟨false, [WireValue.u 1], 1⟩ 2 = ⟨false, [WireValue.u 1], 1⟩ :=
  (sticky_invalid_noop ⟨false, [WireValue.u 1], 1⟩ rfl).1 2

/-- C3: decoding a `Variant` first reads a signature value and looks it up in the
type registry.  If no operations table is registered for that signature the decode
fails — the message becomes `Invalid` and nothing is stored into the target
variant.  If a table is found, its decode capability is delegated to, and the
produced payload together with the read signature (and the table) is stored into
the target. -/
theorem variant_decode_registry (reg : Registry) (fresh : Nat) (m : Message)
    (tgt : Variant) (sg : String) (hv : m.valid = true)
    (hn : m.next = some (.g sg)) :
    (lookupType reg sg = none →
        (readVariant reg fresh m tgt).1.valid = false
      ∧ (readVariant reg fresh m tgt).2 = tgt)
  ∧ (∀ h : HelperTag, lookupType reg sg = some h →
      readVariant reg fresh m tgt
        = ((h.deserialize m.advance).1,
           { signature_ := sg, data_ := some (fresh, (h.deserialize m.advance).2),
             helper_ := some h })) := by
  constructor
  · intro hnone
    constructor
    · simp [readVariant, readG, hv, hn, Message.advance, hnone, Message.invalidate]
    · simp [readVariant, readG, hv, hn, Message.advance, hnone, Message.invalidate]
  · intro h hsome
    simp [readVariant, readG, hv, hn, Message.advance, hsome]

theorem variant_decode_registry_w :
    (readVariant [(sigU, HelperTag.hU32)] 5 ⟨true, [WireValue.g "zz"], 0⟩ {}).1.valid = false
  ∧ (readVariant [(sigU, HelperTag.hU32)] 5 ⟨true, [WireValue.g "zz"], 0⟩ {}).2 = {}
  ∧ readVariant [(sigU, HelperTag.hU32)] 5 ⟨true, [WireValue.g sigU, WireValue.u 7], 0⟩ {}
      = (⟨true, [WireValue.g sigU, WireValue.u 7], 2⟩,
         ⟨sigU, some (5, .pU32 7), some .hU32⟩) :=
  ⟨((variant_decode_registry [(sigU, HelperTag.hU32)] 5 ⟨true, [WireValue.g "zz"], 0⟩
      {} "zz" rfl rfl).1 (by decide)).1,
   ((variant_decode_registry [(sigU, HelperTag.hU32)] 5 ⟨true, [WireValue.g "zz"], 0⟩
      {} "zz" rfl rfl).1 (by decide)).2,
   ((variant_decode_registry [(sigU, HelperTag.hU32)] 5
      ⟨true, [WireValue.g sigU, WireValue.u 7], 0⟩ {} sigU rfl rfl).2
      HelperTag.hU32 (by decide)).trans (by decide)⟩

/-- C5: encoding a `DBusStruct` (instantiated at fields bool, double) opens a Struct
container whose content signature is the concatenation of the field signatures,
writes the fields strictly in declared order through the recursive tuple marshaller,
then closes the container; decoding walks the same structure in the same field
order, consuming open marker, field 0, field 1 and close marker. -/
theorem struct_encode_decode (m : Message) (hm : m.valid = true) (bv tb : Bool)
    (dv td : Nat) (rest : List WireValue) :
    structBDContent = sigB ++ sigD
  ∧ writeStructBD m (bv, dv)
      = ⟨true, m.written ++ [.containerOpen .Struct structBDContent, .b bv, .d dv,
            .containerClose], m.readPos⟩
  ∧ readStructBD ⟨true, .containerOpen .Struct structBDContent :: .b bv :: .d dv
        :: .containerClose :: rest, 0⟩ (tb, td)
      = (⟨true, .containerOpen .Struct structBDContent :: .b bv :: .d dv
            :: .containerClose :: rest, 4⟩, (bv, dv)) := by
  refine ⟨rfl, ?_, ?_⟩
  · simp [writeStructBD, writeContainer, writeContainerEnd, tupleMarshall2,
      tupleMarshall1, writeB, writeD, Message.app, hm]
  · rfl

theorem struct_encode_decode_w :
    writeStructBD {} (true, 77)
      = ⟨true, [.containerOpen .Struct structBDContent, .b true, .d 77,
            .containerClose], 0⟩
  ∧ readStructBD ⟨true, [.containerOpen .Struct structBDContent, .b true, .d 77,
        .containerClose], 0⟩ (false, 0)
      = (⟨true, [.containerOpen .Struct structBDContent, .b true, .d 77,
            .containerClose], 4⟩, (true, 77)) :=
  ⟨(struct_encode_decode {} rfl true false 77 0 []).2.1,
   (struct_encode_decode {} rfl true false 77 0 []).2.2⟩

/-- C6: encoding a `DictEntry` (instantiated at key string, value int32) opens a
DictEntry container, encodes the key first and the value second, then closes the
container; decoding consumes the open marker, then key, then value, then the close
marker, in that order. -/
theorem dictentry_encode_decode (m : Message) (hm : m.valid = true) (k tk : String)
    (vv tv : Int) (rest : List WireValue) :
    dictSIContent = sigS ++ sigI
  ∧ writeDictSI m ⟨k, vv⟩
      = ⟨true, m.written ++ [.containerOpen .DictEntry dictSIContent, .s k, .i vv,
            .containerClose], m.readPos⟩
  ∧ readDictSI ⟨true, .containerOpen .DictEntry dictSIContent :: .s k :: .i vv
        :: .containerClose :: rest, 0⟩ ⟨tk, tv⟩
      = (⟨true, .containerOpen .DictEntry dictSIContent :: .s k :: .i vv
            :: .containerClose :: rest, 4⟩, ⟨k, vv⟩) := by
  refine ⟨rfl, ?_, ?_⟩
  · simp [writeDictSI, writeContainer, writeContainerEnd, writeS, writeI,
      Message.app, hm]
  · rfl

theorem dictentry_encode_decode_w :
    writeDictSI {} ⟨"k", 5⟩
      = ⟨true, [.containerOpen .DictEntry dictSIContent, .s "k", .i 5,
            .containerClose], 0⟩
  ∧ readDictSI ⟨true, [.containerOpen .DictEntry dictSIContent, .s "k", .i 5,
        .containerClose], 0⟩ ⟨"", 0⟩
      = (⟨true, [.containerOpen .DictEntry dictSIContent, .s "k", .i 5,
            .containerClose], 4⟩, ⟨"k", 5⟩) :=
  ⟨(dictentry_encode_decode {} rfl "k" "" 5 0 []).2.1,
   (dictentry_encode_decode {} rfl "k" "" 5 0 []).2.2⟩

theorem foldl_writeS (xs : List String) :
    ∀ m : Message, m.valid = true →
      List.foldl writeS m xs = ⟨true, m.written ++ xs.map WireValue.s, m.readPos⟩ := by
  induction xs with
  | nil =>
    intro m hm
    cases m with
    | mk va w p => simp_all
  | cons v xs ih =>
    intro m hm
    rw [List.foldl_cons, ih (writeS m v) (by simp [writeS, Message.app, hm])]
    simp [writeS, Message.app, hm]

theorem readVecLoop_s (xs : List String) :
    ∀ (pre rest : List WireValue) (fuel : Nat) (temp : String) (acc : List String),
      xs.length < fuel →
      readVecLoop readS fuel
          ⟨true, pre ++ (xs.map WireValue.s ++ WireValue.containerClose :: rest),
            pre.length⟩ temp acc
        = (⟨true, pre ++ (xs.map WireValue.s ++ WireValue.containerClose :: rest),
             pre.length + xs.length⟩, acc ++ xs) := by
  induction xs with
  | nil =>
    intro pre rest fuel temp acc hf
    cases fuel with
    | zero => omega
    | succ f =>
      have hnext : (⟨true, pre ++ (WireValue.containerClose :: rest),
            pre.length⟩ : Message).next = some WireValue.containerClose :=
        get?_append_len pre _
      simp only [List.map_nil, List.nil_append, List.length_nil, Nat.add_zero,
        List.append_nil, readVecLoop, Message.atEnd, hnext]
      simp
  | cons v xs ih =>
    intro pre rest fuel temp acc hf
    cases fuel with
    | zero => omega
    | succ f =>
      have hnext : (⟨true, pre ++ (WireValue.s v
            :: (List.map WireValue.s xs ++ WireValue.containerClose :: rest)),
            pre.length⟩ : Message).next = some (WireValue.s v) :=
        get?_append_len pre _
      have key := ih (pre ++ [WireValue.s v]) rest f v (acc ++ [v])
        (by simp at hf ⊢; omega)
      simp only [List.append_assoc, List.singleton_append, List.length_append,
        List.length_cons, List.length_nil, Nat.zero_add, Nat.add_zero] at key
      simp only [List.map_cons, List.cons_append, List.length_cons, readVecLoop,
        Message.atEnd, hnext, readS, Message.advance, Message.valid, if_true]
      rw [key]
      have harith : pre.length + 1 + xs.length = pre.length + (xs.length + 1) := by
        omega
      rw [harith]
      simp

theorem readVecS_spec (xs t : List String) (rest : List WireValue) :
    readVecS ⟨true, WireValue.containerOpen .Array sigS
        :: (xs.map WireValue.s ++ WireValue.containerClose :: rest), 0⟩ t
      = (⟨true, WireValue.containerOpen .Array sigS
            :: (xs.map WireValue.s ++ WireValue.containerClose :: rest),
          xs.length + 2⟩, t ++ xs) := by
  have hopen : readContainer ⟨true, WireValue.containerOpen .Array sigS
        :: (xs.map WireValue.s ++ WireValue.containerClose :: rest), 0⟩ .Array sigS
      = ⟨true, WireValue.containerOpen .Array sigS
          :: (xs.map WireValue.s ++ WireValue.containerClose :: rest), 1⟩ := by
    simp [readContainer, Message.next, Message.advance]
  have hfuel : xs.length < (WireValue.containerOpen .Array sigS
        :: (xs.map WireValue.s ++ WireValue.containerClose :: rest)).length - 1 := by
    simp [List.length_cons, List.length_append, List.length_map]
  have hloop := readVecLoop_s xs [WireValue.containerOpen .Array sigS] rest
      ((WireValue.containerOpen .Array sigS
        :: (xs.map WireValue.s ++ WireValue.containerClose :: rest)).length - 1)
      "" t hfuel
  simp only [List.singleton_append, List.length_cons, List.length_nil,
    Nat.zero_add] at hloop
  rw [show (1 : Nat) + xs.length = xs.length + 1 from by omega] at hloop
  have hclose : readContainerEnd ⟨true, WireValue.containerOpen .Array sigS
        :: (xs.map WireValue.s ++ WireValue.containerClose :: rest), xs.length + 1⟩
      = ⟨true, WireValue.containerOpen .Array sigS
          :: (xs.map WireValue.s ++ WireValue.containerClose :: rest),
        xs.length + 2⟩ := by
    have hnext2 : (⟨true, (WireValue.containerOpen .Array sigS :: xs.map WireValue.s)
          ++ (WireValue.containerClose :: rest),
          (WireValue.containerOpen .Array sigS :: xs.map WireValue.s).length⟩
            : Message).next
        = some WireValue.containerClose := get?_append_len _ _
    simp only [List.cons_append, List.length_cons, List.length_map] at hnext2
    simp [readContainerEnd, hnext2, Message.advance]
  simp only [readVecS, readVec, hopen]
  simp only [Message.valid, if_true]
  simp only [List.length_cons]
  rw [hloop, hclose]

/-- C4: encoding a `std::vector` (instantiated at element type string) opens an
Array container carrying the element signature, encodes each element in sequence
order, then closes the container; decoding consumes the open marker, repeatedly
decodes one element while the end-of-container sentinel is false appending each to
the target in encounter order with no deduplication, stops exactly at the boundary
without reading past the matching close marker (the cursor lands exactly after the
close marker, leaving any following values unconsumed), and finally consumes the
close marker. -/
theorem array_encode_decode (m : Message) (hm : m.valid = true)
    (xs t : List String) (rest : List WireValue) :
    writeVecS m xs
      = ⟨true, m.written ++ (WireValue.containerOpen .Array sigS
            :: (xs.map WireValue.s ++ [WireValue.containerClose])), m.readPos⟩
  ∧ readVecS ⟨true, WireValue.containerOpen .Array sigS
        :: (xs.map WireValue.s ++ WireValue.containerClose :: rest), 0⟩ t
      = (⟨true, WireValue.containerOpen .Array sigS
            :: (xs.map WireValue.s ++ WireValue.containerClose :: rest),
          xs.length + 2⟩, t ++ xs) := by
  constructor
  · have h1 : writeContainer m .Array sigS
        = ⟨true, m.written ++ [WireValue.containerOpen .Array sigS], m.readPos⟩ := by
      simp [writeContainer, Message.app, hm]
    have h2 := foldl_writeS xs
      ⟨true, m.written ++ [WireValue.containerOpen .Array sigS], m.readPos⟩ rfl
    simp only [writeVecS, writeVec, h1, h2, writeContainerEnd, Message.app]
    simp [List.append_assoc]
  · exact readVecS_spec xs t rest

theorem array_encode_decode_w :
    writeVecS {} ["a", "b"]
      = ⟨true, [.containerOpen .Array sigS, .s "a", .s "b", .containerClose], 0⟩
  ∧ readVecS ⟨true, [.containerOpen .Array sigS, .s "a", .s "b",
        .containerClose], 0⟩ []
      = (⟨true, [.containerOpen .Array sigS, .s "a", .s "b", .containerClose], 4⟩,
         ["a", "b"]) :=
  ⟨(array_encode_decode {} rfl ["a", "b"] [] []).1,
   (array_encode_decode {} rfl ["a", "b"] [] []).2⟩
